import Mathlib

/-!
# Verification of the `yttranscript` transcript-extraction pipeline

A shallow embedding, in Lean 4, of the core of the
`youtube_transcript_downloader` repository
(`src/yttranscript/models.py`, `core.py`, `formatters.py`), together with
theorems settling the claims of the specification about it.

Python strings are modelled as Lean `String` (logic runs over `List Char`;
character classes are the ASCII ones, which cover the video-id and
language-code domain).  Python floats are modelled as `ℚ`.  Python
exceptions become `Except` error values.  The external
`youtube_transcript_api` collaborator (catalog listing, track fetching) is
modelled as explicit outcome sequences handed to the embedded functions;
its `urlparse`/`parse_qs` stdlib helpers are modelled from their documented
behaviour on the URL shapes the resolver handles.
-/

deriving instance DecidableEq for Except

namespace Yt

/-! ## String helpers (models of Python str operations over `List Char`) -/

/-- Split a character list at the first occurrence of `sep` (a nonempty
separator): returns the part before and the part after.  `none` when `sep`
does not occur (or `sep` is empty on a nonempty list, a case no caller
uses). -/
def splitFirst (sep : List Char) : List Char → Option (List Char × List Char)
  | [] => if sep = [] then some ([], []) else none
  | c :: cs =>
    if sep ≠ [] ∧ sep.isPrefixOf (c :: cs) then
      some ([], (c :: cs).drop sep.length)
    else
      match splitFirst sep cs with
      | some (pre, post) => some (c :: pre, post)
      | none => none

/-- Does `needle` occur as a contiguous infix of `hay`?  Models the Python
test `needle in hay` on strings. -/
def containsSub (needle hay : List Char) : Bool :=
  (splitFirst needle hay).isSome ∨ needle = []

/-- Split on every occurrence of the single character `sep`; models
Python `str.split(sep)` (never returns an empty list). -/
def splitAllOn (sep : Char) : List Char → List (List Char)
  | [] => [[]]
  | c :: cs =>
    if c = sep then [] :: splitAllOn sep cs
    else
      match splitAllOn sep cs with
      | [] => [[c]]
      | g :: gs => (c :: g) :: gs

/-- Models Python `l.split(sep)[1]` for a string separator, defined when
`sep` occurs in `l`: the chunk strictly between the first occurrence of
`sep` and the next (or the end).  Callers guard with a prefix test, so the
`IndexError` case (no occurrence) is unreachable and returns `[]`. -/
def pySplitIdx1 (sep l : List Char) : List Char :=
  match splitFirst sep l with
  | none => []
  | some (_, rest) =>
    match splitFirst sep rest with
    | none => rest
    | some (pre, _) => pre

/-- Models Python `str.isalnum` restricted to ASCII: nonempty and every
character alphanumeric.  (Crucially, `"".isalnum()` is `False`.) -/
def pyIsAlnum (cs : List Char) : Bool :=
  !cs.isEmpty && cs.all Char.isAlphanum

/-- Models Python `str.strip()`: drop leading and trailing whitespace. -/
def pyStrip (s : String) : String :=
  String.mk (((s.toList.dropWhile Char.isWhitespace).reverse.dropWhile Char.isWhitespace).reverse)

/-! ## `urllib.parse` model (external stdlib collaborator) -/

/-- The components of `urllib.parse.urlparse` the resolver reads. -/
structure UrlParts where
  netloc : List Char
  path : List Char
  query : List Char
deriving DecidableEq, Repr

/-- Models Python `urllib.parse.urlparse` on the URL shapes the resolver
receives: an optional `scheme://` prefix, then netloc up to the first of
`/?#`, path up to `?` or `#`, query between `?` and `#`. -/
def urlparse (url : String) : UrlParts :=
  let split :=
    match splitFirst "://".toList url.toList with
    | some (_scheme, rest) =>
      let netloc := rest.takeWhile (fun c => c ≠ '/' ∧ c ≠ '?' ∧ c ≠ '#')
      (netloc, rest.drop netloc.length)
    | none => ([], url.toList)
  let pathq := split.2
  let path := pathq.takeWhile (fun c => c ≠ '?' ∧ c ≠ '#')
  let afterPath := pathq.drop path.length
  let query :=
    match afterPath with
    | '?' :: qs => qs.takeWhile (fun c => c ≠ '#')
    | _ => []
  ⟨split.1, path, query⟩

/-- Models `urllib.parse.parse_qs` (default options: blank values and
pairs without `=` are dropped; a pair splits at its first `=`), as the
ordered list of key/value pairs. -/
def parseQsPairs (query : List Char) : List (List Char × List Char) :=
  (splitAllOn '&' query).filterMap fun part =>
    match splitFirst ['='] part with
    | none => none
    | some (k, v) => if v = [] then none else some (k, v)

/-- Models `parse_qs(query).get(key, [None])[0]`: the first value bound to
`key`, if any. -/
def qsGetFirst (query key : List Char) : Option (List Char) :=
  ((parseQsPairs query).find? fun p => p.1 = key).map Prod.snd

end Yt

namespace Yt

/-! ## `models.py`: `Video` and `Video.from_url` -/

/-- Embeds the `InvalidUrlError` exception of `exceptions.py`. -/
structure InvalidUrlError where
  msg : String
deriving DecidableEq, Repr

/-- Embeds the `Video` dataclass of `models.py`. -/
structure Video where
  video_id : String
  url : String
  title : Option String := none
  duration : Option Int := none
  available_languages : Option (List String) := none
deriving DecidableEq, Repr

/-- The final `if not video_id or len(video_id) != 11` check of
`Video.from_url`, shared by the long-form and short-form branches. -/
def finalizeVideoId (url : String) : Option (List Char) → Except InvalidUrlError Video
  | none => .error ⟨"Could not extract valid video ID from: " ++ url⟩
  | some vid =>
    if vid.isEmpty ∨ vid.length ≠ 11 then
      .error ⟨"Could not extract valid video ID from: " ++ url⟩
    else
      .ok { video_id := String.mk vid, url := url }

/-- Embeds `Video.from_url` (`models.py` lines 20–46). -/
def Video.from_url (url : String) : Except InvalidUrlError Video :=
  -- `len(url) == 11 and url.replace('-', '').replace('_', '').isalnum()`
  if url.toList.length = 11 ∧
      pyIsAlnum (url.toList.filter fun c => c ≠ '-' ∧ c ≠ '_') then
    .ok { video_id := url, url := "https://youtube.com/watch?v=" ++ url }
  else
    let parsed := urlparse url
    if containsSub "youtube.com".toList parsed.netloc then
      let video_id : Option (List Char) :=
        if parsed.path = "/watch".toList then
          qsGetFirst parsed.query ['v']
        else if "/embed/".toList.isPrefixOf parsed.path then
          some ((pySplitIdx1 "/embed/".toList parsed.path).takeWhile (fun c => c ≠ '?'))
        else
          none
      finalizeVideoId url video_id
    else if containsSub "youtu.be".toList parsed.netloc then
      let vid := parsed.path.dropWhile (fun c => c = '/')
      let vid := if containsSub ['?'] vid then vid.takeWhile (fun c => c ≠ '?') else vid
      finalizeVideoId url (some vid)
    else
      .error ⟨"Invalid YouTube URL format: " ++ url⟩

/-! ## `models.py`: segments and transcripts

Python floats are modelled as `ℚ`. -/

/-- Models Python `int()` on a rational: truncation toward zero. -/
def pyInt (q : ℚ) : ℤ :=
  if q < 0 then ⌈q⌉ else ⌊q⌋

/-- Models Python float `//` (floor division). -/
def pyFloorDiv (a b : ℚ) : ℚ :=
  ⌊a / b⌋

/-- Models Python float `%`: the remainder carries the sign of the divisor
(here always a positive divisor). -/
def pyMod (a b : ℚ) : ℚ :=
  a - b * ⌊a / b⌋

/-- Models the Python format spec `{:02d}`: decimal rendering left-padded
with zeros to width two. -/
def pad2 (n : ℤ) : String :=
  if 0 ≤ n ∧ n < 10 then "0" ++ toString n else toString n

/-- Embeds the `TranscriptSegment` dataclass of `models.py`. -/
structure TranscriptSegment where
  text : String
  start : Option ℚ := none
  duration : Option ℚ := none
deriving DecidableEq, Repr

/-- Embeds the `end` property: `start + duration` when both are present. -/
def TranscriptSegment.«end» (s : TranscriptSegment) : Option ℚ :=
  match s.start, s.duration with
  | some st, some d => some (st + d)
  | _, _ => none

/-- Embeds `TranscriptSegment.format_timestamp` (`models.py` lines 67–76):
`[HH:MM:SS]` from the start time, or `""` when `start` is `None`. -/
def TranscriptSegment.format_timestamp (s : TranscriptSegment) : String :=
  match s.start with
  | none => ""
  | some st =>
    let hours := pyInt (pyFloorDiv st 3600)
    let minutes := pyInt (pyFloorDiv (pyMod st 3600) 60)
    let seconds := pyInt (pyMod st 60)
    "[" ++ pad2 hours ++ ":" ++ pad2 minutes ++ ":" ++ pad2 seconds ++ "]"

/-- Embeds the `Transcript` dataclass of `models.py`. -/
structure Transcript where
  video_id : String
  language_code : String
  segments : List TranscriptSegment
  is_generated : Bool := false
  is_translatable : Bool := false
deriving DecidableEq, Repr

/-- Embeds the `total_duration` property (`models.py` lines 89–94):
`if not self.segments or not self.segments[-1].end: return None`.
Python truthiness makes `not x` true both for `None` and for `0.0`, so an
`end` equal to zero also yields `None`. -/
def Transcript.total_duration (t : Transcript) : Option ℚ :=
  match t.segments.getLast? with
  | none => none
  | some seg =>
    match seg.«end» with
    | none => none
    | some e => if e = 0 then none else some e

/-- Embeds the `full_text` property: segment texts joined by single
spaces. -/
def Transcript.full_text (t : Transcript) : String :=
  String.intercalate " " (t.segments.map (·.text))

/-! ## `formatters.py` -/

/-- Embeds the line built for one segment by `PlainFormatter.format`:
`line = ""`, timestamp prefix when requested and present, then the
text. -/
def plainLine (include_timestamps : Bool) (seg : TranscriptSegment) : String :=
  (if include_timestamps ∧ seg.start.isSome then seg.format_timestamp ++ " " else "") ++ seg.text

/-- Embeds `PlainFormatter.format` (`formatters.py` lines 35–52). -/
def PlainFormatter.format (t : Transcript) (include_timestamps : Bool) : String :=
  String.intercalate "\n" (t.segments.map (plainLine include_timestamps))

/-- Embeds the line built for one segment by `MarkdownFormatter.format`:
`line = "- "`, a bold timestamp when requested and present, then the
text. -/
def markdownLine (include_timestamps : Bool) (seg : TranscriptSegment) : String :=
  "- " ++ (if include_timestamps ∧ seg.start.isSome then "**" ++ seg.format_timestamp ++ "** " else "")
    ++ seg.text

/-- Embeds `MarkdownFormatter.format` (`formatters.py` lines 58–75). -/
def MarkdownFormatter.format (t : Transcript) (include_timestamps : Bool) : String :=
  String.intercalate "\n" (t.segments.map (markdownLine include_timestamps))

/-- The `FormatType` enum of `formatters.py`, plus a constructor for any
value outside the enum (`get_formatter` is dynamically typed and has a
dedicated branch for unrecognized arguments). -/
inductive FormatTypeArg
  | plain
  | markdown
  | json
  | unrecognized (shown : String)
deriving DecidableEq, Repr

/-- The two formatter classes `get_formatter` can instantiate. -/
inductive FormatterKind
  | plainFormatter
  | markdownFormatter
deriving DecidableEq, Repr

/-- Models the Python `ValueError` carrying its message. -/
structure ValueError where
  msg : String
deriving DecidableEq, Repr

/-- Embeds `get_formatter` (`formatters.py` lines 78–97). -/
def get_formatter : FormatTypeArg → Except ValueError FormatterKind
  | .plain => .ok .plainFormatter
  | .markdown => .ok .markdownFormatter
  | .json => .error ⟨"JSON format is not yet implemented (P3 feature)"⟩
  | .unrecognized shown => .error ⟨"Unsupported format type: " ++ shown⟩

/-! ## `core.py`: the retrying fetcher

A remote operation is modelled as its sequence of outcomes: `outcome i` is
what calling the operation for the `i`-th time produces.  Exception
classes become `ApiError`; the sleep durations the fetcher would perform
are collected into a trace (`random.uniform(0, 1)` becomes the explicit
jitter sequence `jitter`). -/

/-- The exception classes `core.py` distinguishes: the five imported
`youtube_transcript_api` errors, the in-repo `TranscriptNotAvailableError`
(raised inside the guarded block of `extract_transcript`), and any other
exception.  Messages are elided; only the class drives control flow. -/
inductive ApiError
  | youTubeRequestFailed
  | requestBlocked
  | transcriptsDisabled
  | noTranscriptFound
  | videoUnavailable
  | transcriptNotAvailable
  | otherException
deriving DecidableEq, Repr

/-- The first `except` clause of `_fetch_with_retry`:
`(YouTubeRequestFailed, RequestBlocked)`, the transient classes. -/
def isRateLimitTransient : ApiError → Bool
  | .youTubeRequestFailed => true
  | .requestBlocked => true
  | _ => false

/-- The second `except` clause of `_fetch_with_retry`:
`(TranscriptsDisabled, NoTranscriptFound, VideoUnavailable)`, re-raised
immediately without retrying. -/
def isPermanentApiError : ApiError → Bool
  | .transcriptsDisabled => true
  | .noTranscriptFound => true
  | .videoUnavailable => true
  | _ => false

/-- Outcome of `_fetch_with_retry`: a value, a raised exception, or the
fall-through `raise last_exception` with `last_exception = None` (a
`TypeError`; reachable only when `max_retries = 0`). -/
inductive FetchResult (α : Type)
  | ok (a : α)
  | err (e : ApiError)
  | raiseNone
deriving DecidableEq, Repr

/-- What one run of `_fetch_with_retry` did: its outcome, how many times
it invoked the operation, and the sleep durations in order. -/
structure RetryTrace (α : Type) where
  result : FetchResult α
  attempts : ℕ
  sleeps : List ℚ
deriving DecidableEq, Repr

/-- Embeds the `for attempt in range(self.max_retries)` loop of
`_fetch_with_retry` (`core.py` lines 154–192), starting at iteration
`attempt` with `fuel` iterations left.  The transient clause and the
final blanket `except Exception` clause retry identically (sleep
`2 ** attempt + random.uniform(0, 1)` if an attempt remains, else
re-raise); the permanent clause re-raises at once, so the two retrying
clauses are merged into the non-permanent branch. -/
def fetchGo (outcome : ℕ → Except ApiError α) (jitter : ℕ → ℚ) (max_retries : ℕ) :
    ℕ → ℕ → RetryTrace α
  | _, 0 => ⟨.raiseNone, 0, []⟩
  | attempt, fuel + 1 =>
    match outcome attempt with
    | .ok a => ⟨.ok a, 1, []⟩
    | .error e =>
      if isPermanentApiError e then ⟨.err e, 1, []⟩
      else if attempt < max_retries - 1 then
        let rest := fetchGo outcome jitter max_retries (attempt + 1) fuel
        ⟨rest.result, rest.attempts + 1, ((2 : ℚ) ^ attempt + jitter attempt) :: rest.sleeps⟩
      else ⟨.err e, 1, []⟩

/-- Embeds `TranscriptExtractor._fetch_with_retry`. -/
def fetch_with_retry (outcome : ℕ → Except ApiError α) (jitter : ℕ → ℚ)
    (max_retries : ℕ) : RetryTrace α :=
  fetchGo outcome jitter max_retries 0 max_retries

/-! ## `core.py`: `extract_transcript` -/

/-- One raw timed-text entry, in either of the two shapes
`_build_transcript` accepts: attribute-style (new API, `hasattr(item,
'text')`) or mapping-style (old API). -/
inductive RawTranscriptItem
  | attrStyle (text : String) (start duration : Option ℚ)
  | dictStyle (text : String) (start duration : Option ℚ)
deriving DecidableEq, Repr

/-- The per-item normalization of `_build_transcript`: both shapes yield
text with surrounding whitespace stripped plus the optional timing
fields. -/
def buildSegment : RawTranscriptItem → TranscriptSegment
  | .attrStyle text start duration => ⟨pyStrip text, start, duration⟩
  | .dictStyle text start duration => ⟨pyStrip text, start, duration⟩

/-- Embeds `TranscriptExtractor._build_transcript` (`core.py` lines
211–250): one segment per raw entry, in order; `is_generated` and
`is_translatable` are not passed and keep their dataclass defaults. -/
def build_transcript (video_id language_code : String)
    (transcript_data : List RawTranscriptItem) : Transcript :=
  { video_id := video_id
    language_code := language_code
    segments := transcript_data.map buildSegment }

/-- One track of the catalog the external source returns, together with
the outcome sequence of fetching its content (`transcript.fetch()` calls
are indexed by how many times the track was fetched). -/
structure TranscriptTrack where
  language_code : String
  language : String
  is_generated : Bool
  translation_languages : List String
  fetchOutcome : ℕ → Except ApiError (List RawTranscriptItem)

/-- Models the external `TranscriptList.find_transcript([code])` used by
`extract_transcript` (§6 contract of the Transcript Source): the first
track matching the language code, else a raised `NoTranscriptFound`. -/
def find_transcript (catalog : List TranscriptTrack) (code : String) :
    Except ApiError TranscriptTrack :=
  match catalog.find? (fun t => t.language_code == code) with
  | some t => .ok t
  | none => .error .noTranscriptFound

/-- The error classes `extract_transcript` surfaces to its caller
(messages elided). -/
inductive ExtractError
  | transcriptNotAvailable
  | languageNotFound
  | network
deriving DecidableEq, Repr

/-- The `except` ladder of `extract_transcript` (`core.py` lines 80–112):
classifies an exception escaping the guarded block.  `NoTranscriptFound`
splits on whether a language was requested; the blanket
`except Exception` maps everything else — including the in-repo
`TranscriptNotAvailableError` raised at line 78 — to `NetworkError`. -/
def mapExtractException (language : Option String) : ApiError → ExtractError
  | .transcriptsDisabled => .transcriptNotAvailable
  | .noTranscriptFound =>
    match language with
    | some _ => .languageNotFound
    | none => .transcriptNotAvailable
  | .videoUnavailable => .transcriptNotAvailable
  | .youTubeRequestFailed => .network
  | .requestBlocked => .network
  | .transcriptNotAvailable => .network
  | .otherException => .network

/-- Embeds the guarded block of `extract_transcript` (`core.py` lines
55–78) once the catalog is in hand.  With a requested language: look it
up, fetch, build.  Without: try `"en"` inside an inner
`try/except NoTranscriptFound`; on that exception fall back to the first
catalog entry, or raise `TranscriptNotAvailableError` when the catalog is
empty.  Each `transcript.fetch()` is a single direct call (index 0),
not routed through `_fetch_with_retry`. -/
def extractBody (catalog : List TranscriptTrack) (video_id : String) :
    Option String → Except ApiError Transcript
  | some language =>
    match find_transcript catalog language with
    | .error e => .error e
    | .ok transcript =>
      match transcript.fetchOutcome 0 with
      | .error e => .error e
      | .ok transcript_data => .ok (build_transcript video_id language transcript_data)
  | none =>
    match (match find_transcript catalog "en" with
      | .error e => .error e
      | .ok transcript =>
        match transcript.fetchOutcome 0 with
        | .error e => .error e
        | .ok transcript_data =>
          .ok (build_transcript video_id "en" transcript_data) :
      Except ApiError Transcript) with
    | .ok t => .ok t
    | .error e =>
      if e = .noTranscriptFound then
        match catalog with
        | [] => .error .transcriptNotAvailable
        | first_transcript :: _ =>
          match first_transcript.fetchOutcome 0 with
          | .error e2 => .error e2
          | .ok transcript_data =>
            .ok (build_transcript video_id first_transcript.language_code transcript_data)
      else .error e

/-- Embeds `TranscriptExtractor.extract_transcript` (`core.py` lines
36–112).  The catalog fetch `self.api.list(video_id)` goes through
`_fetch_with_retry` (outcome sequence `listOutcome`); whatever escapes
the guarded block is classified by the `except` ladder.  The
`raiseNone` fall-through would be a `TypeError`, which the blanket
`except Exception` also turns into `NetworkError`. -/
def extract_transcript (listOutcome : ℕ → Except ApiError (List TranscriptTrack))
    (jitter : ℕ → ℚ) (max_retries : ℕ) (video_id : String)
    (language : Option String) : Except ExtractError Transcript :=
  match (fetch_with_retry listOutcome jitter max_retries).result with
  | .raiseNone => .error .network
  | .err e => .error (mapExtractException language e)
  | .ok transcript_list =>
    match extractBody transcript_list video_id language with
    | .ok t => .ok t
    | .error e => .error (mapExtractException language e)

end Yt

namespace Yt

/-! ## General lemmas about the retrying fetcher -/

/-- Both transient classes fall outside the permanent clause. -/
theorem transient_not_permanent :
    ∀ e, isRateLimitTransient e = true → isPermanentApiError e = false := by
  intro e h
  cases e <;> simp_all [isRateLimitTransient, isPermanentApiError]

/-- Running the retry loop from iteration `att` with `fuel` iterations
left: `k` retried failures followed by a success stop with the success,
`k + 1` invocations and one backoff sleep per failure. -/
theorem fetchGo_ok_after {α : Type} (outcome : ℕ → Except ApiError α) (jitter : ℕ → ℚ)
    (M : ℕ) :
    ∀ (k : ℕ) (a : α) (att fuel : ℕ), att + fuel = M → k < fuel →
      (∀ i, i < k → ∃ e, outcome (att + i) = .error e ∧ isPermanentApiError e = false) →
      outcome (att + k) = .ok a →
      fetchGo outcome jitter M att fuel =
        ⟨.ok a, k + 1, (List.range k).map fun i => (2 : ℚ) ^ (att + i) + jitter (att + i)⟩ := by
  intro k
  induction k with
  | zero =>
    intro a att fuel hM hk hprev hok
    obtain ⟨fuel, rfl⟩ : ∃ f, fuel = f + 1 := ⟨fuel - 1, by omega⟩
    simp only [Nat.add_zero] at hok
    simp [fetchGo, hok]
  | succ k ih =>
    intro a att fuel hM hk hprev hok
    obtain ⟨fuel, rfl⟩ : ∃ f, fuel = f + 1 := ⟨fuel - 1, by omega⟩
    obtain ⟨e, he, hperm⟩ := hprev 0 (Nat.succ_pos k)
    simp only [Nat.add_zero] at he
    have hlt : att < M - 1 := by omega
    have hrec := ih a (att + 1) fuel (by omega) (by omega)
      (fun i hi => by
        obtain ⟨e', he', hp'⟩ := hprev (i + 1) (by omega)
        exact ⟨e', by rw [show att + 1 + i = att + (i + 1) by omega]; exact he', hp'⟩)
      (by rw [show att + 1 + k = att + (k + 1) by omega]; exact hok)
    simp only [fetchGo, he, hperm, Bool.false_eq_true, if_false, if_pos hlt, hrec]
    have hsl : (((2 : ℚ) ^ att + jitter att) ::
        List.map (fun i => (2 : ℚ) ^ (att + 1 + i) + jitter (att + 1 + i)) (List.range k))
        = List.map (fun i => (2 : ℚ) ^ (att + i) + jitter (att + i)) (List.range (k + 1)) := by
      rw [List.range_succ_eq_map, List.map_cons, List.map_map]
      refine congrArg₂ List.cons (by simp) ?_
      refine List.map_congr_left fun i _ => ?_
      simp only [Function.comp_apply]
      rw [show att + (i + 1) = att + 1 + i by omega]
    rw [hsl]

/-- Running the retry loop from iteration `att` when every remaining
attempt fails with a retried error: the loop uses all `fuel` invocations,
sleeps between consecutive ones, and re-raises the last error. -/
theorem fetchGo_exhaust {α : Type} (outcome : ℕ → Except ApiError α) (jitter : ℕ → ℚ)
    (M : ℕ) :
    ∀ (fuel att : ℕ), 1 ≤ fuel → att + fuel = M →
      (∀ i, i < fuel → ∃ e, outcome (att + i) = .error e ∧ isPermanentApiError e = false) →
      ∀ e, outcome (att + (fuel - 1)) = .error e →
      fetchGo outcome jitter M att fuel =
        ⟨.err e, fuel, (List.range (fuel - 1)).map fun i => (2 : ℚ) ^ (att + i) + jitter (att + i)⟩ := by
  intro fuel
  induction fuel with
  | zero => intro att h1; omega
  | succ fuel ih =>
    intro att _ hM hall e hlast
    rcases Nat.eq_zero_or_pos fuel with hf0 | hfpos
    · subst hf0
      rw [show att + (0 + 1 - 1) = att from by omega] at hlast
      have hperm : isPermanentApiError e = false := by
        obtain ⟨e', he', hp'⟩ := hall 0 Nat.one_pos
        simp only [Nat.add_zero, hlast] at he'
        cases he'
        exact hp'
      have hnlt : ¬ att < M - 1 := by omega
      simp [fetchGo, hlast, hperm, hnlt]
    · obtain ⟨e0, he0, hp0⟩ := hall 0 (Nat.succ_pos fuel)
      simp only [Nat.add_zero] at he0
      have hlt : att < M - 1 := by omega
      have hrec := ih (att + 1) hfpos (by omega)
        (fun i hi => by
          obtain ⟨e', he', hp'⟩ := hall (i + 1) (by omega)
          exact ⟨e', by rw [show att + 1 + i = att + (i + 1) by omega]; exact he', hp'⟩)
        e (by rw [show att + 1 + (fuel - 1) = att + (fuel + 1 - 1) by omega]; exact hlast)
      simp only [fetchGo, he0, hp0, Bool.false_eq_true, if_false, if_pos hlt, hrec]
      have hsl : (((2 : ℚ) ^ att + jitter att) ::
          List.map (fun i => (2 : ℚ) ^ (att + 1 + i) + jitter (att + 1 + i)) (List.range (fuel - 1)))
          = List.map (fun i => (2 : ℚ) ^ (att + i) + jitter (att + i)) (List.range (fuel + 1 - 1)) := by
        rw [show fuel + 1 - 1 = (fuel - 1) + 1 by omega]
        rw [List.range_succ_eq_map, List.map_cons, List.map_map]
        refine congrArg₂ List.cons (by simp) ?_
        refine List.map_congr_left fun i _ => ?_
        simp only [Function.comp_apply]
        rw [show att + (i + 1) = att + 1 + i by omega]
      rw [hsl]

/-- A fetch whose first invocation succeeds uses exactly one invocation
and never sleeps. -/
theorem fetch_result_ok {α : Type} (outcome : ℕ → Except ApiError α) (jitter : ℕ → ℚ)
    (M : ℕ) (a : α) (hM : 1 ≤ M) (h0 : outcome 0 = .ok a) :
    fetch_with_retry outcome jitter M = ⟨.ok a, 1, []⟩ := by
  have h := fetchGo_ok_after outcome jitter M 0 a 0 M (by omega) (by omega)
    (fun i hi => absurd hi (Nat.not_lt_zero i)) (by simpa using h0)
  simpa [fetch_with_retry] using h

end Yt

namespace Yt

/-! ## The claims -/

/-- Claim C1: for every operation and every `max_attempts ≥ 1`, with
jitter drawn from `[0, 1)`: a run of transient (rate-limited / request
failed) errors followed by a success within `max_attempts` succeeds after
`attempts` invocations with exactly `attempts - 1` sleeps, the sleep
before retrying attempt `i + 1` being `2 ^ i` plus the jitter (hence in
`[2 ^ i, 2 ^ i + 1)`); a permanent error (transcripts disabled, track not
found, video unavailable) on the first attempt is raised at once, the
operation invoked exactly once with no sleep; and when all `max_attempts`
attempts fail transiently the last failure is propagated after exactly
`max_attempts` invocations. -/
theorem C1_retry_policy {α : Type} (outcome : ℕ → Except ApiError α) (jitter : ℕ → ℚ)
    (max_retries : ℕ) (hmax : 1 ≤ max_retries)
    (hjit : ∀ i, 0 ≤ jitter i ∧ jitter i < 1) :
    (∀ (k : ℕ) (a : α), k < max_retries →
      (∀ i, i < k → ∃ e, outcome i = .error e ∧ isRateLimitTransient e = true) →
      outcome k = .ok a →
      fetch_with_retry outcome jitter max_retries =
        ⟨.ok a, k + 1, (List.range k).map fun i => (2 : ℚ) ^ i + jitter i⟩ ∧
      ∀ i, i < k → (2 : ℚ) ^ i ≤ (2 : ℚ) ^ i + jitter i ∧ (2 : ℚ) ^ i + jitter i < (2 : ℚ) ^ i + 1)
  ∧ (∀ e, isPermanentApiError e = true → outcome 0 = .error e →
      fetch_with_retry outcome jitter max_retries = ⟨.err e, 1, []⟩)
  ∧ (∀ err : ℕ → ApiError,
      (∀ i, i < max_retries → outcome i = .error (err i) ∧ isRateLimitTransient (err i) = true) →
      fetch_with_retry outcome jitter max_retries =
        ⟨.err (err (max_retries - 1)), max_retries,
          (List.range (max_retries - 1)).map fun i => (2 : ℚ) ^ i + jitter i⟩) := by
  refine ⟨?_, ?_, ?_⟩
  · intro k a hk htrans hok
    refine ⟨?_, fun i _ => ⟨le_add_of_nonneg_right (hjit i).1, by have := (hjit i).2; linarith⟩⟩
    have h := fetchGo_ok_after outcome jitter max_retries k a 0 max_retries (by omega) hk
      (fun i hi => by
        obtain ⟨e, he, ht⟩ := htrans i hi
        exact ⟨e, by simpa using he, transient_not_permanent e ht⟩)
      (by simpa using hok)
    simpa [fetch_with_retry] using h
  · intro e hperm h0
    obtain ⟨m, hm⟩ : ∃ m, max_retries = m + 1 := ⟨max_retries - 1, by omega⟩
    rw [fetch_with_retry, hm]
    simp [fetchGo, h0, hperm]
  · intro err hall
    have h := fetchGo_exhaust outcome jitter max_retries max_retries 0 hmax (by omega)
      (fun i hi => ⟨err i, by simpa using (hall i hi).1,
        transient_not_permanent _ (hall i hi).2⟩)
      (err (max_retries - 1)) (by simpa using (hall (max_retries - 1) (by omega)).1)
    simpa [fetch_with_retry] using h

/-- Witness for C1: one transient failure, then success, with
`max_retries = 3` and zero jitter: two invocations and a single sleep of
`2 ^ 0`. -/
theorem C1_retry_policy_witness :
    fetch_with_retry
        (fun i => if i = 0 then .error .youTubeRequestFailed else .ok (42 : ℕ))
        (fun _ => (0 : ℚ)) 3 =
      ⟨.ok 42, 2, [(2 : ℚ) ^ 0 + 0]⟩ := by
  have h := (C1_retry_policy
      (fun i => if i = 0 then .error .youTubeRequestFailed else .ok (42 : ℕ))
      (fun _ => (0 : ℚ)) 3 (by decide)
      (fun _ => ⟨le_refl 0, zero_lt_one⟩)).1 1 42 (by decide)
    (fun i hi => by
      have hi0 : i = 0 := Nat.lt_one_iff.mp hi
      subst hi0
      exact ⟨.youTubeRequestFailed, rfl, rfl⟩)
    rfl
  exact h.1

/-- Claim C2 (code bug): with an empty catalog and no requested language,
`extract_transcript` surfaces `NetworkError`, not the
`TranscriptNotAvailableError` that the claim, the spec and the function
docstring promise: the `TranscriptNotAvailableError` raised at
`core.py:78` is itself caught by the blanket `except Exception` at
`core.py:111` and re-wrapped as `NetworkError`. -/
theorem C2_empty_catalog_yields_network_error :
    extract_transcript (fun _ => .ok []) (fun _ => 0) 3 "test123" none =
      .error .network := by
  decide

/-- Claim C3 as amended: only the catalog fetch is executed under the
retry policy — transient catalog-fetch failures followed by success are
transparent — while the content fetch of the chosen track is a single
direct call, so its transient failure is surfaced as `NetworkError`
immediately, whatever later fetch attempts would have returned. -/
theorem C3_catalog_retried_content_not
    (listOutcome : ℕ → Except ApiError (List TranscriptTrack)) (jitter : ℕ → ℚ)
    (M : ℕ) (vid : String) (catalog : List TranscriptTrack) :
    (∀ (lang : Option String) (k : ℕ), k < M →
      (∀ i, i < k → ∃ e, listOutcome i = .error e ∧ isRateLimitTransient e = true) →
      listOutcome k = .ok catalog →
      extract_transcript listOutcome jitter M vid lang =
        extract_transcript (fun _ => .ok catalog) jitter M vid lang)
  ∧ (∀ (lang : String) (track : TranscriptTrack), 1 ≤ M →
      listOutcome 0 = .ok catalog →
      catalog.find? (fun t => t.language_code == lang) = some track →
      track.fetchOutcome 0 = .error .youTubeRequestFailed →
      extract_transcript listOutcome jitter M vid (some lang) = .error .network) := by
  constructor
  · intro lang k hk htrans hok
    have h1 := fetchGo_ok_after listOutcome jitter M k catalog 0 M (by omega) hk
      (fun i hi => by
        obtain ⟨e, he, ht⟩ := htrans i hi
        exact ⟨e, by simpa using he, transient_not_permanent e ht⟩)
      (by simpa using hok)
    have h2 := fetch_result_ok (fun _ => .ok catalog) jitter M catalog (by omega) rfl
    rw [extract_transcript, extract_transcript, fetch_with_retry, h1, h2]
  · intro lang track hM hcat hfind hfetch
    have h1 := fetch_result_ok listOutcome jitter M catalog hM hcat
    simp [extract_transcript, h1, extractBody, find_transcript, hfind, hfetch,
      mapExtractException]

/-- Counterexample to C3 as stated: the chosen track fails transiently on
its first fetch and would succeed on the second, yet with
`max_retries = 3` the pipeline reports `NetworkError` — the content fetch
was not retried. -/
theorem C3_content_fetch_not_retried_counterexample :
    extract_transcript
        (fun _ => .ok [⟨"en", "English", false, [],
          fun i => if i = 0 then .error .youTubeRequestFailed
                   else .ok [.attrStyle "Hello" (some 0) (some 2)]⟩])
        (fun _ => 0) 3 "vid" (some "en") = .error .network
    ∧ (fun i : ℕ =>
        if i = 0 then (.error .youTubeRequestFailed : Except ApiError (List RawTranscriptItem))
        else .ok [.attrStyle "Hello" (some 0) (some 2)]) 1 =
      .ok [.attrStyle "Hello" (some 0) (some 2)] := by
  exact ⟨by decide, by decide⟩

/-- Witness for C3: a catalog fetch that fails transiently once behaves
exactly like one that succeeds immediately. -/
theorem C3_catalog_retried_content_not_witness :
    extract_transcript
        (fun i => if i = 0 then .error .requestBlocked
                  else .ok [⟨"de", "German", false, [], fun _ => .ok []⟩])
        (fun _ => 0) 3 "vid" none =
      extract_transcript
        (fun _ => .ok [⟨"de", "German", false, [], fun _ => .ok []⟩])
        (fun _ => 0) 3 "vid" none := by
  exact (C3_catalog_retried_content_not _ _ 3 "vid" _).1 none 1 (by decide)
    (fun i hi => by
      have hi0 : i = 0 := Nat.lt_one_iff.mp hi
      subst hi0
      exact ⟨.requestBlocked, rfl, rfl⟩)
    rfl

/-- Claim C4: an explicitly requested language absent from a non-empty
catalog fails with `LanguageNotFoundError`, never
`TranscriptNotAvailableError`. -/
theorem C4_explicit_language_absent
    (listOutcome : ℕ → Except ApiError (List TranscriptTrack)) (jitter : ℕ → ℚ)
    (M : ℕ) (vid lang : String) (catalog : List TranscriptTrack)
    (hM : 1 ≤ M) (hcat : listOutcome 0 = .ok catalog) (_hne : catalog ≠ [])
    (habs : ∀ t ∈ catalog, t.language_code ≠ lang) :
    extract_transcript listOutcome jitter M vid (some lang) = .error .languageNotFound := by
  have h1 := fetch_result_ok listOutcome jitter M catalog hM hcat
  have hfind : catalog.find? (fun t => t.language_code == lang) = none :=
    List.find?_eq_none.mpr (fun t ht => by simpa using habs t ht)
  simp [extract_transcript, h1, extractBody, find_transcript, hfind, mapExtractException]

/-- Witness for C4: requesting `"es"` against a one-track French catalog
fails with `LanguageNotFoundError`. -/
theorem C4_explicit_language_absent_witness :
    extract_transcript
        (fun _ => .ok [⟨"fr", "French", false, [], fun _ => .ok []⟩])
        (fun _ => 0) 3 "vid" (some "es") = .error .languageNotFound := by
  exact C4_explicit_language_absent _ _ 3 "vid" "es" _ (by decide) rfl
    (List.cons_ne_nil _ _) (by decide)

/-- Claim C5: the six positive resolver vectors all yield id
`"ABCDEFGHIJK"`, and the Vimeo URL and the `/watch` URL without a `v`
parameter both fail with `InvalidUrlError`. -/
theorem C5_resolver_vectors :
    Video.from_url "https://youtube.com/watch?v=ABCDEFGHIJK" =
      .ok ⟨"ABCDEFGHIJK", "https://youtube.com/watch?v=ABCDEFGHIJK", none, none, none⟩
  ∧ Video.from_url "https://www.youtube.com/watch?v=ABCDEFGHIJK&t=5s" =
      .ok ⟨"ABCDEFGHIJK", "https://www.youtube.com/watch?v=ABCDEFGHIJK&t=5s", none, none, none⟩
  ∧ Video.from_url "https://youtu.be/ABCDEFGHIJK" =
      .ok ⟨"ABCDEFGHIJK", "https://youtu.be/ABCDEFGHIJK", none, none, none⟩
  ∧ Video.from_url "https://youtu.be/ABCDEFGHIJK?t=5" =
      .ok ⟨"ABCDEFGHIJK", "https://youtu.be/ABCDEFGHIJK?t=5", none, none, none⟩
  ∧ Video.from_url "https://youtube.com/embed/ABCDEFGHIJK" =
      .ok ⟨"ABCDEFGHIJK", "https://youtube.com/embed/ABCDEFGHIJK", none, none, none⟩
  ∧ Video.from_url "ABCDEFGHIJK" =
      .ok ⟨"ABCDEFGHIJK", "https://youtube.com/watch?v=ABCDEFGHIJK", none, none, none⟩
  ∧ Video.from_url "https://vimeo.com/123456" =
      .error ⟨"Invalid YouTube URL format: https://vimeo.com/123456"⟩
  ∧ Video.from_url "https://youtube.com/watch" =
      .error ⟨"Could not extract valid video ID from: https://youtube.com/watch"⟩ := by
  refine ⟨by decide, by decide, by decide, by decide, by decide, by decide, by decide, by decide⟩

end Yt

namespace Yt

/-- Counterexample to C6 as stated: eleven underscores satisfy the
claimed character condition, yet `url.replace('-', '').replace('_', '')`
is empty, `"".isalnum()` is `False`, and the input falls through to URL
parsing, failing with `InvalidUrlError`. -/
theorem C6_bare_id_counterexample :
    ("___________".toList.length = 11 ∧
      ∀ c ∈ "___________".toList, c.isAlphanum ∨ c = '-' ∨ c = '_')
    ∧ Video.from_url "___________" =
        .error ⟨"Invalid YouTube URL format: ___________"⟩ := by
  exact ⟨by decide, by decide⟩

/-- Claim C6 as amended: an 11-character input over alphanumerics,
hyphens and underscores containing at least one alphanumeric character is
treated as a bare ID: id equals the input and the canonical URL is
`"https://youtube.com/watch?v=" ++ id`, the URL-parsing branch never
entered. -/
theorem C6_bare_id_amended (url : String) (hlen : url.toList.length = 11)
    (hchars : ∀ c ∈ url.toList, c.isAlphanum ∨ c = '-' ∨ c = '_')
    (halnum : ∃ c ∈ url.toList, c.isAlphanum) :
    Video.from_url url =
      .ok ⟨url, "https://youtube.com/watch?v=" ++ url, none, none, none⟩ := by
  have hcond : url.toList.length = 11 ∧
      pyIsAlnum (url.toList.filter fun c => c ≠ '-' ∧ c ≠ '_') = true := by
    refine ⟨hlen, ?_⟩
    unfold pyIsAlnum
    rw [Bool.and_eq_true]
    constructor
    · obtain ⟨c, hc, hal⟩ := halnum
      have hmem : c ∈ url.toList.filter fun c => c ≠ '-' ∧ c ≠ '_' := by
        rw [List.mem_filter]
        refine ⟨hc, ?_⟩
        simp only [decide_eq_true_eq]
        constructor <;> rintro rfl <;> exact absurd hal (by decide)
      rw [Bool.not_eq_eq_eq_not, Bool.not_true, List.isEmpty_eq_false_iff_exists_mem]
      exact ⟨c, hmem⟩
    · rw [List.all_eq_true]
      intro c hc
      rw [List.mem_filter] at hc
      rcases hchars c hc.1 with h | h | h
      · exact h
      · rw [h] at hc
        exact absurd hc.2 (by decide)
      · rw [h] at hc
        exact absurd hc.2 (by decide)
  unfold Video.from_url
  rw [if_pos hcond]

/-- Witness for C6: the hyphenated bare ID `"dQw4w9WgX-Q"` resolves to
itself with the synthesized canonical URL. -/
theorem C6_bare_id_amended_witness :
    Video.from_url "dQw4w9WgX-Q" =
      .ok ⟨"dQw4w9WgX-Q", "https://youtube.com/watch?v=" ++ "dQw4w9WgX-Q", none, none, none⟩ := by
  exact C6_bare_id_amended "dQw4w9WgX-Q" (by decide) (by decide) (by decide)

/-- The integer value Python `int()` takes on an embedded integer. -/
theorem pyInt_intCast (n : ℤ) : pyInt (n : ℚ) = n := by
  unfold pyInt
  split
  · exact Int.ceil_intCast n
  · exact Int.floor_intCast n

/-- Floor of a rational divided by a positive natural equals integer
division of its floor. -/
theorem floor_rat_div_natCast (a : ℚ) (n : ℕ) (hn : 0 < n) :
    ⌊a / (n : ℚ)⌋ = ⌊a⌋ / (n : ℤ) := by
  have hq : (0 : ℚ) < (n : ℚ) := by exact_mod_cast hn
  have hz : (0 : ℤ) < (n : ℤ) := by exact_mod_cast hn
  have key : ∀ z : ℤ, z ≤ ⌊a / (n : ℚ)⌋ ↔ z ≤ ⌊a⌋ / (n : ℤ) := by
    intro z
    rw [Int.le_floor, le_div_iff₀ hq, Int.le_ediv_iff_mul_le hz, Int.le_floor]
    push_cast
    exact Iff.rfl
  exact le_antisymm ((key _).mp le_rfl) ((key _).mpr le_rfl)

/-- The Python remainder against a positive divisor is non-negative. -/
theorem pyMod_nonneg (a b : ℚ) (hb : 0 < b) : 0 ≤ pyMod a b := by
  unfold pyMod
  have h := Int.sub_floor_div_mul_nonneg a hb
  linarith

/-- The timestamp of a present start renders the truncated second count
`⌊s⌋` as zero-padded `[HH:MM:SS]` fields. -/
theorem format_timestamp_some_eq (txt : String) (d : Option ℚ) (s : ℚ) :
    TranscriptSegment.format_timestamp ⟨txt, some s, d⟩ =
      "[" ++ pad2 (⌊s⌋ / 3600) ++ ":" ++ pad2 (⌊s⌋ % 3600 / 60) ++ ":" ++ pad2 (⌊s⌋ % 60)
        ++ "]" := by
  have e60 : ⌊s / (60 : ℚ)⌋ = ⌊s⌋ / 60 := by
    have h := floor_rat_div_natCast s 60 (by norm_num)
    simpa using h
  have e3600 : ⌊s / (3600 : ℚ)⌋ = ⌊s⌋ / 3600 := by
    have h := floor_rat_div_natCast s 3600 (by norm_num)
    simpa using h
  have h1 : pyInt (pyFloorDiv s 3600) = ⌊s⌋ / 3600 := by
    unfold pyFloorDiv
    rw [pyInt_intCast, e3600]
  have h2 : pyInt (pyFloorDiv (pyMod s 3600) 60) = ⌊s⌋ % 3600 / 60 := by
    unfold pyFloorDiv pyMod
    rw [pyInt_intCast]
    have e1 : (s - 3600 * ↑⌊s / (3600 : ℚ)⌋) / 60 = s / 60 - ↑(60 * ⌊s / (3600 : ℚ)⌋) := by
      push_cast
      ring
    rw [e1, Int.floor_sub_int, e60, e3600]
    omega
  have h3 : pyInt (pyMod s 60) = ⌊s⌋ % 60 := by
    have hnn : (0 : ℚ) ≤ pyMod s 60 := pyMod_nonneg s 60 (by norm_num)
    unfold pyInt
    rw [if_neg (not_lt.mpr hnn)]
    unfold pyMod
    have e1 : s - 60 * ↑⌊s / (60 : ℚ)⌋ = s - ↑(60 * ⌊s / (60 : ℚ)⌋) := by
      push_cast
      ring
    rw [e1, Int.floor_sub_int, e60]
    omega
  simp only [TranscriptSegment.format_timestamp, h1, h2, h3]

/-- Claim C7: the plain renderer emits one line per segment in order,
prefixed by the formatted timestamp and one space exactly when timestamps
are requested and the start is present, lines joined by a single newline
with no trailing newline and the empty transcript rendering to the empty
string; the markdown renderer is identical except for the leading
`"- "` and the bold-wrapped timestamp; the timestamp itself is the
zero-padded `[HH:MM:SS]` of the floor of the start, and empty when the
start is absent. -/
theorem C7_renderers :
    (∀ (t : Transcript) (ts : Bool),
      PlainFormatter.format t ts =
        String.intercalate "\n" (t.segments.map fun seg =>
          match seg.start with
          | some _ => if ts then seg.format_timestamp ++ " " ++ seg.text else seg.text
          | none => seg.text))
  ∧ (∀ (t : Transcript) (ts : Bool),
      MarkdownFormatter.format t ts =
        String.intercalate "\n" (t.segments.map fun seg =>
          match seg.start with
          | some _ =>
            if ts then "- " ++ "**" ++ seg.format_timestamp ++ "**" ++ " " ++ seg.text
            else "- " ++ seg.text
          | none => "- " ++ seg.text))
  ∧ (∀ (vid lc : String) (g tr ts : Bool),
      PlainFormatter.format ⟨vid, lc, [], g, tr⟩ ts = "" ∧
      MarkdownFormatter.format ⟨vid, lc, [], g, tr⟩ ts = "")
  ∧ (∀ (txt : String) (d : Option ℚ) (s : ℚ),
      TranscriptSegment.format_timestamp ⟨txt, some s, d⟩ =
        "[" ++ pad2 (⌊s⌋ / 3600) ++ ":" ++ pad2 (⌊s⌋ % 3600 / 60) ++ ":" ++ pad2 (⌊s⌋ % 60)
          ++ "]")
  ∧ (∀ (txt : String) (d : Option ℚ),
      TranscriptSegment.format_timestamp ⟨txt, none, d⟩ = "") := by
  refine ⟨?_, ?_, ?_, format_timestamp_some_eq, fun txt d => rfl⟩
  · intro t ts
    unfold PlainFormatter.format
    refine congrArg _ (List.map_congr_left fun seg _ => ?_)
    cases hs : seg.start with
    | none => simp [plainLine, hs, String.empty_append]
    | some s =>
      cases ts with
      | false => simp [plainLine, hs, String.empty_append]
      | true => simp [plainLine, hs, String.append_assoc]
  · intro t ts
    unfold MarkdownFormatter.format
    refine congrArg _ (List.map_congr_left fun seg _ => ?_)
    cases hs : seg.start with
    | none => simp [markdownLine, hs, String.append_empty]
    | some s =>
      cases ts with
      | false => simp [markdownLine, hs, String.append_empty]
      | true =>
        simp [markdownLine, hs, String.append_assoc]
        rw [← String.append_assoc "- " "**",
          show ("- " : String) ++ "**" = "- **" from by decide]
  · intro vid lc g tr ts
    exact ⟨rfl, rfl⟩

end Yt

namespace Yt

/-- Counterexample to C8 as stated: a final segment with
`start = duration = 0` has a computable `end` of `0`, yet
`total_duration` is `None`, because `not self.segments[-1].end` treats
the float `0.0` as falsy. -/
theorem C8_total_duration_counterexample :
    TranscriptSegment.«end» ⟨"hi", some 0, some 0⟩ = some 0
    ∧ Transcript.total_duration ⟨"v", "en", [⟨"hi", some 0, some 0⟩], false, false⟩ = none := by
  constructor
  · simp [TranscriptSegment.«end»]
  · simp [Transcript.total_duration, TranscriptSegment.«end»]

/-- Claim C8 as amended: `total_duration` is absent exactly when the
segment sequence is empty, the last segment lacks `start` or `duration`,
or the last segment `end` equals `0`; in every other case it equals the
last segment `end`. -/
theorem C8_total_duration_amended (t : Transcript) :
    (t.total_duration = none ↔
      t.segments = [] ∨ t.segments.getLast?.bind TranscriptSegment.«end» = none
        ∨ t.segments.getLast?.bind TranscriptSegment.«end» = some 0)
  ∧ (∀ e : ℚ, t.segments.getLast?.bind TranscriptSegment.«end» = some e → e ≠ 0 →
      t.total_duration = some e) := by
  unfold Transcript.total_duration
  cases hlast : t.segments.getLast? with
  | none =>
    rw [List.getLast?_eq_none_iff] at hlast
    simp [hlast, List.getLast?_eq_none_iff]
  | some seg =>
    have hne : ¬ t.segments = [] := by
      intro h0
      rw [h0] at hlast
      exact absurd hlast (by simp)
    cases hend : seg.«end» with
    | none => simp [hlast, hend, hne]
    | some e =>
      by_cases he : e = 0
      · subst he
        simp [hlast, hend, hne]
      · simp [hlast, hend, hne, he]

/-- Witness for C8: a single segment ending at `1 + 2` gives a present
`total_duration` equal to that end. -/
theorem C8_total_duration_amended_witness :
    Transcript.total_duration ⟨"v", "en", [⟨"a", some 1, some 2⟩], false, false⟩ =
      some (1 + 2) := by
  exact (C8_total_duration_amended ⟨"v", "en", [⟨"a", some 1, some 2⟩], false, false⟩).2
    (1 + 2) rfl (by norm_num)

/-- Claim C9: the selector rejects the recognized-but-unimplemented JSON
identifier with the `not yet implemented` message instead of returning a
formatter, rejects any unrecognized identifier with the distinct
`Unsupported format type` message, and the two failure values are
distinguishable from each other. -/
theorem C9_formatter_selector :
    get_formatter .json = .error ⟨"JSON format is not yet implemented (P3 feature)"⟩
  ∧ (∀ k, get_formatter .json ≠ .ok k)
  ∧ (∀ shown, get_formatter (.unrecognized shown) =
      .error ⟨"Unsupported format type: " ++ shown⟩)
  ∧ (∀ shown, get_formatter .json ≠ get_formatter (.unrecognized shown)) := by
  refine ⟨rfl, by simp [get_formatter], fun _ => rfl, ?_⟩
  intro shown h
  simp only [get_formatter, Except.error.injEq, ValueError.mk.injEq] at h
  have h2 := congrArg String.data h
  rw [String.data_append] at h2
  have h3 := congrArg List.head? h2
  have h4 : (("JSON format is not yet implemented (P3 feature)" : String).data).head? =
      some 'J' := rfl
  have h5 : (("Unsupported format type: " : String).data ++ shown.data).head? = some 'U' := rfl
  rw [h4, h5] at h3
  exact absurd (Option.some.inj h3) (by decide)

/-- Witness for C9: the unrecognized identifier `"yaml"` produces the
`Unsupported format type` failure, distinct from the JSON one. -/
theorem C9_formatter_selector_witness :
    get_formatter (.unrecognized "yaml") = .error ⟨"Unsupported format type: " ++ "yaml"⟩
    ∧ get_formatter .json ≠ get_formatter (.unrecognized "yaml") := by
  exact ⟨C9_formatter_selector.2.2.1 "yaml", C9_formatter_selector.2.2.2 "yaml"⟩

/-- A successful guarded block always returns a transcript built by
`_build_transcript`, whose flag fields keep their dataclass defaults. -/
theorem extractBody_flags (catalog : List TranscriptTrack) (vid : String)
    (lang : Option String) (t : Transcript) (h : extractBody catalog vid lang = .ok t) :
    t.is_generated = false ∧ t.is_translatable = false := by
  cases lang with
  | some l =>
    simp only [extractBody] at h
    split at h
    · exact absurd h (by simp)
    · split at h
      · exact absurd h (by simp)
      · cases h
        exact ⟨rfl, rfl⟩
  | none =>
    simp only [extractBody] at h
    split at h
    next t' heq =>
      cases h
      split at heq
      · exact absurd heq (by simp)
      · split at heq
        · exact absurd heq (by simp)
        · cases heq
          exact ⟨rfl, rfl⟩
    next e heq =>
      split at h
      · split at h
        · exact absurd h (by simp)
        · split at h
          · exact absurd h (by simp)
          · cases h
            exact ⟨rfl, rfl⟩
      · exact absurd h (by simp)

/-- Claim C10: `_build_transcript` never sets `is_generated` or
`is_translatable`, so every transcript returned by a successful
`extract_transcript` carries `is_generated = false` and
`is_translatable = false` whatever the flags of the chosen track. -/
theorem C10_flags_never_propagated :
    (∀ (vid lc : String) (data : List RawTranscriptItem),
      (build_transcript vid lc data).is_generated = false ∧
      (build_transcript vid lc data).is_translatable = false)
  ∧ (∀ (listOutcome : ℕ → Except ApiError (List TranscriptTrack)) (jitter : ℕ → ℚ)
       (M : ℕ) (vid : String) (lang : Option String) (t : Transcript),
      extract_transcript listOutcome jitter M vid lang = .ok t →
      t.is_generated = false ∧ t.is_translatable = false) := by
  constructor
  · exact fun vid lc data => ⟨rfl, rfl⟩
  · intro listOutcome jitter M vid lang t h
    unfold extract_transcript at h
    split at h
    · exact absurd h (by simp)
    · exact absurd h (by simp)
    case h_3 catalog heq =>
      split at h
      case h_1 t' hbody =>
        cases h
        exact extractBody_flags catalog vid lang _ hbody
      case h_2 e hbody =>
        exact absurd h (by simp)

/-- Witness for C10: extracting from a track marked generated and
translatable still yields a transcript with both flags `false`. -/
theorem C10_flags_never_propagated_witness :
    extract_transcript
        (fun _ => .ok [⟨"fr", "French", true, ["en"],
          fun _ => .ok [.dictStyle " Bonjour " (some 0) (some 2)]⟩])
        (fun _ => 0) 3 "vid" none =
      .ok ⟨"vid", "fr", [⟨"Bonjour", some 0, some 2⟩], false, false⟩
    ∧ (⟨"vid", "fr", [⟨"Bonjour", some 0, some 2⟩], false, false⟩ : Transcript).is_generated = false
    ∧ (⟨"vid", "fr", [⟨"Bonjour", some 0, some 2⟩], false, false⟩ : Transcript).is_translatable = false := by
  refine ⟨by decide, ?_⟩
  exact C10_flags_never_propagated.2
    (fun _ => .ok [⟨"fr", "French", true, ["en"],
      fun _ => .ok [.dictStyle " Bonjour " (some 0) (some 2)]⟩])
    (fun _ => 0) 3 "vid" none _ (by decide)

end Yt
